import Mathlib

/-!
Shallow embedding of the channel list-mode tracking engine of
`src/PyIRC/extensions/bantrack.py` (the `BanTrack` extension), together
with theorems settling the frozen claims about it.

Modelling conventions:

* A Python `BanEntry` namedtuple is the structure `BanTrack.BanEntry`;
  the setter hostmask is kept as a plain string (only its case-folded
  string form is ever compared by the code under scrutiny).
* The per-channel `ban_modes` defaultdict-of-lists is a total function
  `Char → List BanTrack.BanEntry` (the defaultdict's auto-created empty
  list is the function's `[]` value at letters never written).
* `ISupport.get("CHANMODES")`, `prefix_parse(ISupport.get("PREFIX"))`,
  `BasicRFC.nick`, `self.casefold` and `round(time())` live outside
  `src/`; they enter the embedding as inputs: a `Caps` value (wrapped in
  `Option`, `none` when the capability provider has not reported yet),
  the `nick` string, the fold function, and the clock value `now`.
* One handler invocation returns a `HandlerResult`: the post-state of
  the looked-up channel, the lines passed to `self.send`, and the
  exception (if any) escaping the handler.  Every error the embedded
  handlers can raise occurs before any store mutation in the Python
  source, so an error result always carries the unchanged channel.
-/

namespace BanTrack

/-- Embeds the `BanEntry` namedtuple of bantrack.py line 29:
fields `string` (the mask), `setter`, `timestamp`. -/
structure BanEntry where
  string : String
  setter : String
  timestamp : Nat
deriving DecidableEq, Repr

/-- The four CHANMODES groups as reported by ISupport; `g0` is the
list-type group A (the letters bantrack tracks), used by bantrack.py
lines 112 and 135 as `modegroups[0]`. -/
structure ModeGroups where
  g0 : String
  g1 : String
  g2 : String
  g3 : String
deriving DecidableEq, Repr

/-- Capability data resolved at bantrack.py lines 90-92: the CHANMODES
groups and the parsed PREFIX table (status letter, display symbol). -/
structure Caps where
  modegroups : ModeGroups
  prefixes : List (Char × Char)
deriving DecidableEq, Repr

/-- The status-mode letters: Python's `mode in prefixes` tests dict
keys, i.e. membership among the first components. -/
def prefixKeys (ps : List (Char × Char)) : List Char :=
  ps.map Prod.fst

/-- A channel as obtained from `ChannelTrack.get_channel`: its name and
its `ban_modes` store (bantrack.py lines 73, 88). -/
structure Channel where
  name : String
  ban_modes : Char → List BanEntry

/-- A MODE event after the destructuring of bantrack.py lines 77-80:
`target = params[0]`, `modes = params[1]`, `modeparams = params[2:]`,
`setter = event.line.hostmask`. -/
structure ModeEvent where
  target : String
  modes : String
  modeparams : List String
  setter : String
deriving DecidableEq, Repr

/-- A list-reply numeric event after the destructuring of bantrack.py
lines 142-145: `command`, `params[0]` (channel), `params[1]` (mask),
`params[2]` (setter string), `params[3]` (timestamp string). -/
structure ListReplyEvent where
  command : String
  target : String
  mask : String
  setterStr : String
  timestampStr : String
deriving DecidableEq, Repr

/-- Exceptions a handler can let escape. -/
inductive Err where
  | nameError (n : String)
  | capsNotReady
deriving DecidableEq, Repr

/-- Outcome of one handler invocation: the post-state of the channel the
event named (as the registry would now hold it), everything passed to
`self.send`, and the escaping exception if any. -/
structure HandlerResult where
  channel : Option Channel
  sent : List (String × List String)
  err : Option Err

/-- Modelled from the spec: `PyIRC.auxparse.mode_parse` is not under
src/.  Spec section 4.1: given the mode string, its positional
parameters, the four mode groups and the status-prefix table, produce
(letter, parameter-or-none, adding) triples in mode-string order;
a parameter is consumed left-to-right exactly when the letter's class
requires one in the current direction (list-type and always-parameter
letters and status letters in both directions, add-only-parameter
letters only when adding); a triple whose required parameter is missing
is simply absent from the output (spec section 7). -/
def takesParam (g : ModeGroups) (pks : List Char) (c : Char) (adding : Bool) : Bool :=
  (g.g0.toList).contains c || (g.g1.toList).contains c ||
    ((g.g2.toList).contains c && adding) || pks.contains c

/-- Modelled from the spec: the character-list worker of `mode_parse`.
State: remaining mode characters, remaining parameters, current
direction (`+` sets adding, `-` sets removing, initial direction is
adding). -/
def mode_parse_go (g : ModeGroups) (pks : List Char) :
    List Char → List String → Bool → List (Char × Option String × Bool)
  | [], _, _ => []
  | c :: cs, ps, adding =>
    if c = '+' then mode_parse_go g pks cs ps true
    else if c = '-' then mode_parse_go g pks cs ps false
    else if takesParam g pks c adding then
      match ps with
      | [] => mode_parse_go g pks cs [] adding
      | p :: ps' => (c, some p, adding) :: mode_parse_go g pks cs ps' adding
    else (c, none, adding) :: mode_parse_go g pks cs ps adding

/-- Modelled from the spec: `PyIRC.auxparse.mode_parse` as called at
bantrack.py lines 95-96. -/
def mode_parse (modes : String) (params : List String) (g : ModeGroups)
    (pks : List Char) : List (Char × Option String × Bool) :=
  mode_parse_go g pks modes.toList params true

/-- Embeds the scan of bantrack.py lines 117-128: walk the letter's
entry list looking for the first entry whose case-folded mask equals
the case-folded parameter; on a match, replace it (`adding`) or delete
it (not `adding`) and signal the match with `some` (the Python then
executes `return`, aborting the whole handler); `none` means no entry
matched (the Python falls through to the append at line 131). -/
def scanUpdate (fold : String → String) (param : String) (entry : BanEntry)
    (adding : Bool) : List BanEntry → Option (List BanEntry)
  | [] => none
  | e :: rest =>
    if fold param = fold e.string then
      some (if adding then entry :: rest else rest)
    else
      (scanUpdate fold param entry adding rest).map (e :: ·)

/-- Point update of the `ban_modes` store at one mode letter. -/
def setMode (bm : Char → List BanEntry) (m : Char) (l : List BanEntry) :
    Char → List BanEntry :=
  fun c => if c = m then l else bm c

/-- The mutable state of one run of `BanTrack.mode`: the channel's
`ban_modes` store and the `send_request` flag of bantrack.py line 94. -/
structure ModeState where
  ban_modes : Char → List BanEntry
  send_request : Bool

/-- Embeds bantrack.py lines 112-131 for one triple carrying a
parameter: skip letters outside `modegroups[0]`; otherwise build the
entry and run the scan; a match mutates and halts the handler (the
`return` at line 128), no match appends the entry (line 131 - the
append is unconditional in the source, it happens on removals too). -/
def listStep (fold : String → String) (setter : String) (now : Nat)
    (g : ModeGroups) (st : ModeState) (m : Char) (param : String)
    (adding : Bool) : ModeState × Bool :=
  if (g.g0.toList).contains m then
    match scanUpdate fold param ⟨param, setter, now⟩ adding (st.ban_modes m) with
    | some l => ({ st with ban_modes := setMode st.ban_modes m l }, true)
    | none =>
        ({ st with ban_modes :=
            setMode st.ban_modes m (st.ban_modes m ++ [⟨param, setter, now⟩]) },
         false)
  else (st, false)

/-- Embeds bantrack.py lines 97-131 for one triple: parameterless
triples are skipped (line 97); a status letter other than `v` first
passes the `not (send_request ^ adding)` guard of line 103 (equality of
the two booleans means `continue`), then flips `send_request` when the
parameter case-folds to the client's own nick (lines 108-110); then the
list-entry step runs.  The second component is the halt flag (the
`return` of line 128). -/
def processTriple (fold : String → String) (nick setter : String) (now : Nat)
    (g : ModeGroups) (pks : List Char) (st : ModeState) (m : Char)
    (param? : Option String) (adding : Bool) : ModeState × Bool :=
  match param? with
  | none => (st, false)
  | some param =>
    if pks.contains m ∧ m ≠ 'v' then
      if st.send_request = adding then (st, false)
      else
        listStep fold setter now g
          (if fold param = fold nick then { st with send_request := adding } else st)
          m param adding
    else listStep fold setter now g st m param adding

/-- Embeds the triple loop of bantrack.py lines 95-131, propagating the
halt of the `return` at line 128: once a triple halts, the remaining
triples are never processed. -/
def runTriples (fold : String → String) (nick setter : String) (now : Nat)
    (g : ModeGroups) (pks : List Char) :
    List (Char × Option String × Bool) → ModeState → ModeState × Bool
  | [], st => (st, false)
  | (m, param?, adding) :: ts, st =>
    match processTriple fold nick setter now g pks st m param? adding with
    | (st', true) => (st', true)
    | (st', false) => runTriples fold nick setter now g pks ts st'

/-- Embeds `BanTrack.mode` (bantrack.py lines 75-135).  `fold` is the
server-defined casefold, `nick` the client's own nick (BasicRFC), `now`
the value of `round(time())`, `caps?` the capability data (`none` when
the capability provider has not reported yet - Modelled from the spec,
sections 4.2 and 7: the operation then fails fast with a
capabilities-not-ready condition instead of misclassifying modes),
`channel?` the result of `ChannelTrack.get_channel(params[0])`.  An
unknown channel returns silently before anything else (lines 84-86);
after the triples, the follow-up `self.send("MODE", [channel.name,
modegroups[0]])` of line 135 fires only when the loop ran to completion
with `send_request` set. -/
def mode (fold : String → String) (nick : String) (now : Nat)
    (caps? : Option Caps) (channel? : Option Channel) (ev : ModeEvent) :
    HandlerResult :=
  match channel? with
  | none => ⟨none, [], none⟩
  | some ch =>
    match caps? with
    | none => ⟨some ch, [], some Err.capsNotReady⟩
    | some caps =>
      let pks := prefixKeys caps.prefixes
      let triples := mode_parse ev.modes ev.modeparams caps.modegroups pks
      match runTriples fold nick ev.setter now caps.modegroups pks triples
          ⟨ch.ban_modes, false⟩ with
      | (st, halted) =>
        ⟨some { ch with ban_modes := st.ban_modes },
         if halted = false ∧ st.send_request = true then
           [("MODE", [ch.name, caps.modegroups.g0])]
         else [],
         none⟩

/-- The names resolvable at bantrack.py line 147: the locals bound by
lines 141-145 (`self`, `event`, `params`, `string`, `setter`,
`timestamp`) and the module-level globals of bantrack.py (its imports
and top-level definitions).  No Python builtin is named `param` either. -/
def scopeAt147 : List String :=
  ["self", "event", "params", "string", "setter", "timestamp",
   "time", "namedtuple", "defaultdict", "getLogger", "BaseExtension",
   "hook", "PRIORITY_LAST", "mode_parse", "prefix_parse", "Hostmask",
   "Numerics", "logger", "BanEntry", "BanTrack"]

/-- Embeds `BanTrack.list_numeric` (bantrack.py lines 141-178).  Line
147, `entry = BanEntry(param, setter, timestamp)`, evaluates the name
`param`, which is not in `scopeAt147`, so CPython raises `NameError`
there - before the numeric-table check (line 149), the channel lookup
(lines 155-156) and every store access (the loop at line 158 would
moreover read the also-undefined bare name `ban_modes`, and the append
at line 178).  Every invocation therefore propagates the `NameError`
with the channel registry and the store untouched and nothing sent. -/
def list_numeric (channel? : Option Channel) (_ev : ListReplyEvent) :
    HandlerResult :=
  ⟨channel?, [], some (Err.nameError "param")⟩

/-- Index of the first entry whose case-folded mask equals the
case-folded parameter (the index i at which the scan of bantrack.py
lines 118-119 fires), `none` when no entry matches. -/
def foldIdx (fold : String → String) (p : String) : List BanEntry → Option Nat
  | [] => none
  | e :: rest =>
    if fold p = fold e.string then some 0
    else (foldIdx fold p rest).map (· + 1)

/-- No two entries of the sequence have case-folded-equal masks
(the invariant of spec section 3). -/
def FoldDistinct (fold : String → String) (l : List BanEntry) : Prop :=
  l.Pairwise fun a b => fold a.string ≠ fold b.string

/-- Every mode letter's sequence satisfies `FoldDistinct`. -/
def StoreInv (fold : String → String) (bm : Char → List BanEntry) : Prop :=
  ∀ c, FoldDistinct fold (bm c)

/-- A mode-change event carrying exactly one adding list-mode letter
with one mask parameter (`MODE <chan> +<m> <M>`). -/
def addEvent (chName : String) (m : Char) (M setter : String) : ModeEvent :=
  ⟨chName, String.mk ['+', m], [M], setter⟩

/-- Concrete capability data with `modeGroups[0] = "b"` and prefixes
`o -> @`, `v -> +` (the configuration of spec section 8's concrete
cases). -/
def capsB : Caps := ⟨⟨"b", "", "", ""⟩, [('o', '@'), ('v', '+')]⟩

/-- A known channel whose store is empty at every letter. -/
def chEmpty : Channel := ⟨"#chan", fun _ => []⟩

/-- A known channel already tracking one ban entry for letter `b`. -/
def chBan : Channel :=
  ⟨"#chan", fun c => if c = 'b' then [⟨"*!*@a.com", "x!y@z", 100⟩] else []⟩

/-- A known channel tracking the entry (mask `x`, setter `a`, ts 1). -/
def chX : Channel :=
  ⟨"#c", fun c => if c = 'b' then [⟨"x", "a", 1⟩] else []⟩

/-- A known channel whose `b` store holds (mask `X`, setter `A`,
ts 100), the starting store of spec section 8's bulk-sync merge case. -/
def chMerge : Channel :=
  ⟨"#chan", fun c => if c = 'b' then [⟨"X", "A", 100⟩] else []⟩

/-- The event `MODE #chan +ob me *!*@a.com`: grants the client (nick
`me`) operator status and re-adds an already-tracked ban. -/
def evSelfOp : ModeEvent := ⟨"#chan", "+ob", ["me", "*!*@a.com"], "op!u@h"⟩

/-- The event `MODE #chan +b-b *!*@a.com *!*@a.com` of spec
section 8's concrete add-then-remove case. -/
def evAddRem : ModeEvent :=
  ⟨"#chan", "+b-b", ["*!*@a.com", "*!*@a.com"], "srv"⟩

/-- The event `MODE #chan -b *!*@a.com`: removal of a mask the store
does not track. -/
def evRemOnly : ModeEvent := ⟨"#chan", "-b", ["*!*@a.com"], "op!u@h"⟩

/-- A RPL_BANLIST (367) reply row `#chan X B 200`. -/
def evRowXB : ListReplyEvent := ⟨"367", "#chan", "X", "B", "200"⟩

/-- A RPL_BANLIST (367) reply row `#chan Y S 50` (mask new to the
store). -/
def evRowY : ListReplyEvent := ⟨"367", "#chan", "Y", "S", "50"⟩

/-- A RPL_BANLIST (367) reply row naming a channel unknown to the
registry. -/
def evRowGone : ListReplyEvent := ⟨"367", "#gone", "*!*@a.com", "srv", "100"⟩

/-- C1: the claim says every triple is processed in order and a
self-status change yields exactly one outbound MODE query for the
list-type letters after all triples.  Evaluating the code on
`MODE #chan +ob me *!*@a.com` (client nick `me`, channel already
tracking that ban mask): the `+o me` triple records the self-status
grant, but the `+b` triple matches the existing entry and the `return`
of bantrack.py line 128 aborts the handler, so nothing is sent - the
entry is replaced and `sent` is empty, contradicting the claimed MODE
query. -/
theorem claim_C1 :
    (mode (fun t => t) "me" 42 (some capsB) (some chBan) evSelfOp).sent = [] ∧
      (mode (fun t => t) "me" 42 (some capsB) (some chBan) evSelfOp).channel.map
        (fun ch => ch.ban_modes 'b') = some [⟨"*!*@a.com", "op!u@h", 42⟩] :=
  ⟨rfl, rfl⟩

/-- C2: every list-reply invocation of `BanTrack.list_numeric` raises
`NameError` for the undefined name `param` at bantrack.py line 147,
before the channel lookup or any store access, so no list-reply row
ever modifies any channel's list-mode store: the name `param` is not
in scope at line 147, and the handler's result carries the unchanged
channel, an empty send list and the NameError. -/
theorem claim_C2 (channel? : Option Channel) (ev : ListReplyEvent) :
    "param" ∉ scopeAt147 ∧
      list_numeric channel? ev = ⟨channel?, [], some (Err.nameError "param")⟩ :=
  ⟨by decide, rfl⟩

/-- C3: the claim says a list-reply row whose mask exactly equals a
stored entry's mask leaves the store unchanged on equal timestamps and
asserts-then-replaces on differing timestamps.  Evaluating the code on
the row `367 #chan X B 200` against a store holding (X, A, 100): the
handler raises NameError for `param` at bantrack.py line 147 before
reaching the merge loop, so the store keeps (X, A, 100) instead of the
claimed replacement with (X, B, 200). -/
theorem claim_C3 :
    list_numeric (some chMerge) evRowXB =
      ⟨some chMerge, [], some (Err.nameError "param")⟩ :=
  rfl

/-- C6: the claim says a removal whose mask matches no tracked entry
leaves the store completely unchanged.  Evaluating the code on
`MODE #chan -b *!*@a.com` against an empty store: the scan finds no
match and control falls through to the unconditional append of
bantrack.py line 131, so the removal ADDS the entry
(*!*@a.com, op!u@h, 7) instead of leaving the store unchanged. -/
theorem claim_C6 :
    (mode (fun t => t) "me" 7 (some capsB) (some chEmpty) evRemOnly).channel.map
      (fun ch => ch.ban_modes 'b') = some [⟨"*!*@a.com", "op!u@h", 7⟩] :=
  rfl

/-- C7: with `modeGroups[0] = "b"` and prefixes `o -> @`, `v -> +`,
handling `MODE #chan +b-b *!*@a.com *!*@a.com` on a channel with no
`b` entry first adds and then removes the same mask, leaving the final
store with no entry for mode `b`. -/
theorem claim_C7 :
    (mode (fun t => t) "me" 42 (some capsB) (some chEmpty) evAddRem).channel.map
      (fun ch => ch.ban_modes 'b') = some [] :=
  rfl

/-- C8: the claim says every mode-change or list-reply event naming an
unknown channel is a silent no-op with no exception.  The mode-change
half holds (bantrack.py lines 84-86, first conjunct), but a list-reply
event raises NameError at line 147 before the channel lookup at lines
155-156 ever runs, so an exception escapes (second conjunct),
contradicting the claim for the list-reply half. -/
theorem claim_C8 :
    (∀ fold nick now caps? ev,
      mode fold nick now caps? none ev = ⟨none, [], none⟩) ∧
      (list_numeric none evRowGone).err = some (Err.nameError "param") :=
  ⟨fun _ _ _ caps? _ => by cases caps? <;> rfl, rfl⟩

/-- C9: when the capability provider has not yet reported the
channel-mode groups or the status-prefix table, handling a mode-change
event on a known channel fails fast with the capabilities-not-ready
condition: the channel (and its store) is returned unchanged, nothing
is sent, and the reported error is `Err.capsNotReady`. -/
theorem claim_C9 (fold : String → String) (nick : String) (now : Nat)
    (ch : Channel) (ev : ModeEvent) :
    mode fold nick now none (some ch) ev =
      ⟨some ch, [], some Err.capsNotReady⟩ :=
  rfl

/-- C10: the claim says a list-reply row whose mask matches no stored
entry is appended to the end of the letter's sequence.  Evaluating the
code on the row `367 #chan Y S 50` against an empty store: the handler
raises NameError for `param` at bantrack.py line 147 and nothing is
ever appended - the store comes back unchanged. -/
theorem claim_C10 :
    list_numeric (some chEmpty) evRowY =
      ⟨some chEmpty, [], some (Err.nameError "param")⟩ :=
  rfl


theorem scanUpdate_add_eq (fold : String → String) (p : String) (e : BanEntry) :
    ∀ l : List BanEntry,
      scanUpdate fold p e true l = (foldIdx fold p l).map (fun j => l.set j e)
  | [] => rfl
  | x :: rest => by
    by_cases h : fold p = fold x.string
    · simp [scanUpdate, foldIdx, h]
    · simp only [scanUpdate, foldIdx, if_neg h, scanUpdate_add_eq fold p e rest,
        Option.map_map]
      cases foldIdx fold p rest with
      | none => rfl
      | some j => rfl

theorem foldIdx_append_last (fold : String → String) (p : String) (e : BanEntry)
    (he : fold p = fold e.string) (l : List BanEntry) :
    foldIdx fold p l = none → foldIdx fold p (l ++ [e]) = some l.length := by
  induction l with
  | nil => intro _; simp [foldIdx, he]
  | cons x rest ih =>
    intro h
    by_cases hx : fold p = fold x.string
    · rw [foldIdx, if_pos hx] at h
      simp at h
    · rw [foldIdx, if_neg hx] at h
      have hrest : foldIdx fold p rest = none := by
        cases hrec : foldIdx fold p rest with
        | none => rfl
        | some v => rw [hrec] at h; simp at h
      rw [List.cons_append, foldIdx, if_neg hx, ih hrest]
      rfl

theorem set_append_last (a b : BanEntry) :
    ∀ l : List BanEntry, (l ++ [a]).set l.length b = l ++ [b]
  | [] => rfl
  | x :: rest => by simp [List.set, set_append_last a b rest]

theorem scanUpdate_mem (fold : String → String) (p : String) (e : BanEntry)
    (adding : Bool) (l : List BanEntry) :
    ∀ l', scanUpdate fold p e adding l = some l' → ∀ x ∈ l', x ∈ l ∨ x = e := by
  induction l with
  | nil => intro l' h; simp [scanUpdate] at h
  | cons y rest ih =>
    intro l' h x hx
    by_cases hy : fold p = fold y.string
    · rw [scanUpdate, if_pos hy, Option.some_inj] at h
      subst h
      cases adding with
      | true =>
        have hx' : x ∈ e :: rest := hx
        rcases List.mem_cons.mp hx' with rfl | hxr
        · exact Or.inr rfl
        · exact Or.inl (List.mem_cons_of_mem _ hxr)
      | false =>
        have hx' : x ∈ rest := hx
        exact Or.inl (List.mem_cons_of_mem _ hx')
    · rw [scanUpdate, if_neg hy] at h
      cases hrec : scanUpdate fold p e adding rest <;> rw [hrec] at h
      · simp at h
      · simp only [Option.map_some', Option.some_inj] at h
        subst h
        rcases List.mem_cons.mp hx with rfl | hxr
        · exact Or.inl (List.mem_cons_self _ _)
        · rcases ih _ hrec x hxr with hin | hxe
          · exact Or.inl (List.mem_cons_of_mem _ hin)
          · exact Or.inr hxe

theorem scanUpdate_none_no_match (fold : String → String) (p : String)
    (e : BanEntry) (adding : Bool) (l : List BanEntry) :
    scanUpdate fold p e adding l = none → ∀ x ∈ l, fold p ≠ fold x.string := by
  induction l with
  | nil => intro _ x hx; simp at hx
  | cons y rest ih =>
    intro h x hx
    by_cases hy : fold p = fold y.string
    · rw [scanUpdate, if_pos hy] at h
      simp at h
    · rw [scanUpdate, if_neg hy] at h
      have hrest : scanUpdate fold p e adding rest = none := by
        cases hrec : scanUpdate fold p e adding rest with
        | none => rfl
        | some r => rw [hrec] at h; simp at h
      rcases List.mem_cons.mp hx with rfl | hxr
      · exact hy
      · exact ih hrest x hxr

theorem scanUpdate_distinct (fold : String → String) (p : String) (e : BanEntry)
    (he : fold e.string = fold p) (adding : Bool) (l : List BanEntry) :
    ∀ l', FoldDistinct fold l → scanUpdate fold p e adding l = some l' →
      FoldDistinct fold l' := by
  induction l with
  | nil => intro l' _ h; simp [scanUpdate] at h
  | cons y rest ih =>
    intro l' hd h
    rw [FoldDistinct, List.pairwise_cons] at hd
    obtain ⟨hy', hrest⟩ := hd
    by_cases hy : fold p = fold y.string
    · rw [scanUpdate, if_pos hy, Option.some_inj] at h
      subst h
      cases adding with
      | true =>
        show FoldDistinct fold (e :: rest)
        rw [FoldDistinct, List.pairwise_cons]
        refine ⟨fun z hz hc => ?_, hrest⟩
        rw [he, hy] at hc
        exact hy' z hz hc
      | false => exact hrest
    · rw [scanUpdate, if_neg hy] at h
      cases hrec : scanUpdate fold p e adding rest <;> rw [hrec] at h
      · simp at h
      · simp only [Option.map_some', Option.some_inj] at h
        subst h
        rw [FoldDistinct, List.pairwise_cons]
        refine ⟨fun z hz => ?_, ih _ hrest hrec⟩
        rcases scanUpdate_mem fold p e adding rest _ hrec z hz with hin | rfl
        · exact hy' z hin
        · intro hc
          rw [he] at hc
          exact hy hc.symm

theorem append_distinct (fold : String → String) (l : List BanEntry)
    (e : BanEntry) (hl : FoldDistinct fold l)
    (hnm : ∀ x ∈ l, fold e.string ≠ fold x.string) :
    FoldDistinct fold (l ++ [e]) := by
  rw [FoldDistinct, List.pairwise_append]
  refine ⟨hl, by simp, fun a ha b hb => ?_⟩
  obtain rfl := List.mem_singleton.mp hb
  exact fun hc => hnm a ha hc.symm

theorem setMode_inv (fold : String → String) (bm : Char → List BanEntry)
    (m : Char) (l : List BanEntry) (h : StoreInv fold bm)
    (hl : FoldDistinct fold l) : StoreInv fold (setMode bm m l) := by
  intro c
  unfold setMode
  by_cases hc : c = m
  · rw [if_pos hc]
    exact hl
  · rw [if_neg hc]
    exact h c

theorem listStep_inv (fold : String → String) (setter : String) (now : Nat)
    (g : ModeGroups) (st : ModeState) (m : Char) (param : String)
    (adding : Bool) (h : StoreInv fold st.ban_modes) :
    StoreInv fold ((listStep fold setter now g st m param adding).1.ban_modes) := by
  unfold listStep
  by_cases hg : (g.g0.toList).contains m = true
  · rw [if_pos hg]
    cases hscan : scanUpdate fold param ⟨param, setter, now⟩ adding (st.ban_modes m) with
    | none =>
      refine setMode_inv fold st.ban_modes m _ h ?_
      exact append_distinct fold _ _ (h m)
        (scanUpdate_none_no_match fold param _ adding _ hscan)
    | some l =>
      exact setMode_inv fold st.ban_modes m l h
        (scanUpdate_distinct fold param _ rfl adding _ l (h m) hscan)
  · rw [if_neg hg]
    exact h

theorem processTriple_inv (fold : String → String) (nick setter : String)
    (now : Nat) (g : ModeGroups) (pks : List Char) (st : ModeState) (m : Char)
    (param? : Option String) (adding : Bool) (h : StoreInv fold st.ban_modes) :
    StoreInv fold
      ((processTriple fold nick setter now g pks st m param? adding).1.ban_modes) := by
  cases param? with
  | none => exact h
  | some param =>
    simp only [processTriple]
    by_cases hpm : pks.contains m = true ∧ m ≠ 'v'
    · rw [if_pos hpm]
      by_cases hsr : st.send_request = adding
      · rw [if_pos hsr]
        exact h
      · rw [if_neg hsr]
        refine listStep_inv fold setter now g _ m param adding ?_
        by_cases hf : fold param = fold nick
        · rw [if_pos hf]
          exact h
        · rw [if_neg hf]
          exact h
    · rw [if_neg hpm]
      exact listStep_inv fold setter now g st m param adding h

theorem runTriples_inv (fold : String → String) (nick setter : String)
    (now : Nat) (g : ModeGroups) (pks : List Char) :
    ∀ (ts : List (Char × Option String × Bool)) (st : ModeState),
      StoreInv fold st.ban_modes →
      StoreInv fold ((runTriples fold nick setter now g pks ts st).1.ban_modes)
  | [], _, h => h
  | (m, param?, adding) :: ts, st, h => by
    unfold runTriples
    have h1 := processTriple_inv fold nick setter now g pks st m param? adding h
    cases hp : processTriple fold nick setter now g pks st m param? adding with
    | mk st1 halt =>
      rw [hp] at h1
      cases halt with
      | true => exact h1
      | false => exact runTriples_inv fold nick setter now g pks ts st1 h1

/-- C5: every call of `BanTrack.mode` preserves the store invariant
that within one mode letter's ordered sequence no two entries have
case-folded-equal mask values: if the looked-up channel's store has
fold-distinct sequences at every letter, so does the store of the
channel the handler returns. -/
theorem claim_C5 (fold : String → String) (nick : String) (now : Nat)
    (caps? : Option Caps) (channel? : Option Channel) (ev : ModeEvent)
    (hinv : ∀ ch, channel? = some ch → StoreInv fold ch.ban_modes) :
    ∀ ch', (mode fold nick now caps? channel? ev).channel = some ch' →
      StoreInv fold ch'.ban_modes := by
  cases channel? with
  | none =>
    intro ch' h
    simp [mode] at h
  | some ch =>
    cases caps? with
    | none =>
      intro ch' h
      simp only [mode, Option.some_inj] at h
      exact h ▸ hinv ch rfl
    | some caps =>
      intro ch' h
      have hrun := runTriples_inv fold nick ev.setter now caps.modegroups
        (prefixKeys caps.prefixes)
        (mode_parse ev.modes ev.modeparams caps.modegroups (prefixKeys caps.prefixes))
        ⟨ch.ban_modes, false⟩ (hinv ch rfl)
      cases hr : runTriples fold nick ev.setter now caps.modegroups
          (prefixKeys caps.prefixes)
          (mode_parse ev.modes ev.modeparams caps.modegroups (prefixKeys caps.prefixes))
          ⟨ch.ban_modes, false⟩ with
      | mk st halted =>
        rw [hr] at hrun
        simp only [mode, hr, Option.some_inj] at h
        subst h
        exact hrun

/-- Witness for C5 at a concrete input: the identity fold, the empty
store of `chEmpty`, and the event `MODE #chan +b *!*@a.com`. -/
theorem claim_C5_w :
    StoreInv (fun t => t)
      (((mode (fun t => t) "me" 3 (some capsB) (some chEmpty)
          ⟨"#chan", "+b", ["*!*@a.com"], "srv"⟩).channel).getD chEmpty).ban_modes :=
  claim_C5 (fun t => t) "me" 3 (some capsB) (some chEmpty)
    ⟨"#chan", "+b", ["*!*@a.com"], "srv"⟩
    (fun ch hch => by
      cases hch
      exact fun c => List.Pairwise.nil)
    _ rfl


theorem mode_parse_single (g : ModeGroups) (pks : List Char) (m : Char)
    (M : String) (h1 : m ≠ '+') (h2 : m ≠ '-')
    (h3 : takesParam g pks m true = true) :
    mode_parse (String.mk ['+', m]) [M] g pks = [(m, some M, true)] := by
  rw [mode_parse, show (String.mk ['+', m]).toList = ['+', m] from rfl]
  simp only [mode_parse_go, if_pos rfl, if_neg h1, if_neg h2, h3, if_true]

theorem mode_single_add (fold : String → String) (nick : String) (now : Nat)
    (caps : Caps) (ch : Channel) (m : Char) (M s : String)
    (hg : (caps.modegroups.g0.toList).contains m = true)
    (hp : (prefixKeys caps.prefixes).contains m = false)
    (h1 : m ≠ '+') (h2 : m ≠ '-') :
    mode fold nick now (some caps) (some ch) (addEvent ch.name m M s) =
      match scanUpdate fold M ⟨M, s, now⟩ true (ch.ban_modes m) with
      | some l => ⟨some ⟨ch.name, setMode ch.ban_modes m l⟩, [], none⟩
      | none =>
          ⟨some ⟨ch.name, setMode ch.ban_modes m (ch.ban_modes m ++ [⟨M, s, now⟩])⟩,
           [], none⟩ := by
  have h3 : takesParam caps.modegroups (prefixKeys caps.prefixes) m true = true := by
    unfold takesParam
    rw [hg]
    simp
  have hpm : ¬((prefixKeys caps.prefixes).contains m = true ∧ m ≠ 'v') := by
    rw [hp]
    simp
  have hev : (addEvent ch.name m M s).modes = String.mk ['+', m] := rfl
  have hevp : (addEvent ch.name m M s).modeparams = [M] := rfl
  have hevs : (addEvent ch.name m M s).setter = s := rfl
  cases hscan : scanUpdate fold M ⟨M, s, now⟩ true (ch.ban_modes m) with
  | some l =>
    simp only [mode, hev, hevp, hevs,
      mode_parse_single caps.modegroups (prefixKeys caps.prefixes) m M h1 h2 h3,
      runTriples, processTriple, if_neg hpm, listStep, if_pos hg, hscan]
    simp
  | none =>
    simp only [mode, hev, hevp, hevs,
      mode_parse_single caps.modegroups (prefixKeys caps.prefixes) m M h1 h2 h3,
      runTriples, processTriple, if_neg hpm, listStep, if_pos hg, hscan]
    simp


/-- C4: a mode-change adding a list-type entry whose case-folded mask
matches an existing entry of the same letter replaces that entry in
place (same position) with the new setter and current time (first
conjunct, position j being the first fold-match); and applying the
same add twice starting from a store with no fold-match for the mask
yields exactly one entry for it - the first add appends it and the
second replaces it in place with the second setter and time, never
duplicating (second conjunct). -/
theorem claim_C4 (fold : String → String) (nick M s1 s2 : String) (n1 n2 : Nat)
    (caps : Caps) (ch : Channel) (m : Char)
    (hg : (caps.modegroups.g0.toList).contains m = true)
    (hp : (prefixKeys caps.prefixes).contains m = false)
    (h1 : m ≠ '+') (h2 : m ≠ '-') :
    (∀ j, foldIdx fold M (ch.ban_modes m) = some j →
      ∃ ch', (mode fold nick n1 (some caps) (some ch)
          (addEvent ch.name m M s1)).channel = some ch' ∧
        ch'.ban_modes m = (ch.ban_modes m).set j ⟨M, s1, n1⟩ ∧
        ∀ c, c ≠ m → ch'.ban_modes c = ch.ban_modes c) ∧
    (foldIdx fold M (ch.ban_modes m) = none →
      ∃ ch1 ch2,
        (mode fold nick n1 (some caps) (some ch)
          (addEvent ch.name m M s1)).channel = some ch1 ∧
        (mode fold nick n2 (some caps) (some ch1)
          (addEvent ch1.name m M s2)).channel = some ch2 ∧
        ch1.ban_modes m = ch.ban_modes m ++ [⟨M, s1, n1⟩] ∧
        ch2.ban_modes m = ch.ban_modes m ++ [⟨M, s2, n2⟩]) := by
  constructor
  · intro j hj
    have hscan : scanUpdate fold M ⟨M, s1, n1⟩ true (ch.ban_modes m) =
        some ((ch.ban_modes m).set j ⟨M, s1, n1⟩) := by
      rw [scanUpdate_add_eq, hj]
      rfl
    refine ⟨⟨ch.name, setMode ch.ban_modes m ((ch.ban_modes m).set j ⟨M, s1, n1⟩)⟩,
      ?_, ?_, ?_⟩
    · rw [mode_single_add fold nick n1 caps ch m M s1 hg hp h1 h2, hscan]
    · show setMode ch.ban_modes m _ m = _
      unfold setMode
      rw [if_pos rfl]
    · intro c hc
      show setMode ch.ban_modes m _ c = _
      unfold setMode
      rw [if_neg hc]
  · intro hnone
    have hscan1 : scanUpdate fold M ⟨M, s1, n1⟩ true (ch.ban_modes m) = none := by
      rw [scanUpdate_add_eq, hnone]
      rfl
    have hbm1 : (⟨ch.name, setMode ch.ban_modes m
        (ch.ban_modes m ++ [⟨M, s1, n1⟩])⟩ : Channel).ban_modes m =
        ch.ban_modes m ++ [⟨M, s1, n1⟩] := by
      show setMode ch.ban_modes m _ m = _
      unfold setMode
      rw [if_pos rfl]
    have hidx : foldIdx fold M ((⟨ch.name, setMode ch.ban_modes m
        (ch.ban_modes m ++ [⟨M, s1, n1⟩])⟩ : Channel).ban_modes m) =
        some (ch.ban_modes m).length := by
      rw [hbm1]
      exact foldIdx_append_last fold M ⟨M, s1, n1⟩ rfl (ch.ban_modes m) hnone
    have hscan2 : scanUpdate fold M ⟨M, s2, n2⟩ true
        ((⟨ch.name, setMode ch.ban_modes m
          (ch.ban_modes m ++ [⟨M, s1, n1⟩])⟩ : Channel).ban_modes m) =
        some (ch.ban_modes m ++ [⟨M, s2, n2⟩]) := by
      rw [scanUpdate_add_eq, hidx, hbm1, Option.map_some', set_append_last]
    refine ⟨⟨ch.name, setMode ch.ban_modes m (ch.ban_modes m ++ [⟨M, s1, n1⟩])⟩,
      ⟨ch.name, setMode (setMode ch.ban_modes m (ch.ban_modes m ++ [⟨M, s1, n1⟩])) m
        (ch.ban_modes m ++ [⟨M, s2, n2⟩])⟩, ?_, ?_, hbm1, ?_⟩
    · rw [mode_single_add fold nick n1 caps ch m M s1 hg hp h1 h2, hscan1]
    · rw [mode_single_add fold nick n2 caps _ m M s2 hg hp h1 h2, hscan2]
    · show setMode _ m _ m = _
      unfold setMode
      rw [if_pos rfl]

/-- Witness for C4 at a concrete input: identity fold, channel `chX`
tracking (mask x, setter a, ts 1), adding mask x by setter s1 at time
5 replaces the entry in place at position 0. -/
theorem claim_C4_w :
    ∃ ch', (mode (fun t => t) "me" 5 (some capsB) (some chX)
        (addEvent chX.name 'b' "x" "s1")).channel = some ch' ∧
      ch'.ban_modes 'b' = (chX.ban_modes 'b').set 0 ⟨"x", "s1", 5⟩ ∧
      ∀ c, c ≠ 'b' → ch'.ban_modes c = chX.ban_modes c :=
  (claim_C4 (fun t => t) "me" "x" "s1" "s2" 5 9 capsB chX 'b'
      (by decide) (by decide) (by decide) (by decide)).1 0 (by decide)

end BanTrack
